import Mathlib

/-!
# Shallow embedding of the tick-bench broadcast engine

This file embeds the rate-controlled event broadcast engine of the
repository (server: `generator.ts`, `ws-server.ts`, `uws-server.ts`,
`config.ts`; client: `useWebSocket.ts`) into Lean 4 and proves or refutes
the specification claims about it.

Conventions of the embedding:
* JS numbers that the program only ever uses as integers (rates, counters,
  millisecond / nanosecond timestamps) are modelled as `Int` or `Nat`;
  computations the program performs with fractional intermediate results
  (`1000 / rate`, `rate / 1000`, `elapsed / nsPerMessage`,
  `rate * (1 + percent / 100)`) are modelled exactly over `Rat`.
* IEEE-754 doubles that are only moved through buffers (the tick price in
  the binary codec) are modelled by their 64-bit pattern as a `Nat`;
  "equal to double precision" is bit-pattern equality.
* `Buffer` values are `List Nat` of bytes.
* Randomness (`Math.random()`) is an explicit rational parameter in `[0,1)`.
* The Node event loop is modelled explicitly where a claim needs it: the
  `setImmediate` queue is a FIFO list of pending busy-loop callbacks, and
  the timer installed by `setInterval` is recorded in the state.
-/

namespace TickBench

/-! ## JS arithmetic helpers -/

/-- Result of a JS floating-point division used as a timer delay: either a
finite rational, an infinity (division of a nonzero number by `0`), or NaN. -/
inductive JsNum where
  | fin (q : ℚ)
  | posInf
  | negInf
  | nan
deriving DecidableEq, Repr

/-- JS division `a / b` on numbers, with the IEEE conventions for a zero
divisor (`1000 / 0 = Infinity`). -/
def jsDiv (a b : ℚ) : JsNum :=
  if b = 0 then
    (if 0 < a then JsNum.posInf else if a < 0 then JsNum.negInf else JsNum.nan)
  else JsNum.fin (a / b)

/-- Modelled from Node.js timer validation (`lib/internal/timers.js`): a
`setInterval`/`setTimeout` delay that is not in `[1, 2^31 - 1]` — including
`Infinity`, `NaN` and negative values — is replaced by `1` ms. -/
def nodeDelayMs : JsNum → ℚ
  | JsNum.fin q => if q < 1 ∨ (2147483647 : ℚ) < q then 1 else q
  | JsNum.posInf => 1
  | JsNum.negInf => 1
  | JsNum.nan => 1

/-! ## Byte buffers (`server/src/generator.ts` binary codec) -/

/-- `k` bytes of `n` in little-endian order, as `Buffer.write*LE` lays
them out. -/
def bytesOfNatLE : ℕ → ℕ → List ℕ
  | 0, _ => []
  | k + 1, n => n % 256 :: bytesOfNatLE k (n / 256)

/-- Read a little-endian unsigned integer back from bytes
(`Buffer.readUInt32LE` / unsigned 64-bit read). -/
def natOfBytesLE : List ℕ → ℕ
  | [] => 0
  | b :: bs => b + 256 * natOfBytesLE bs

/-- `buffer.writeBigInt64LE(BigInt(ts))`: the eight little-endian bytes of
the two's-complement representation of `ts`. -/
def writeBigInt64LE (ts : ℤ) : List ℕ :=
  bytesOfNatLE 8 (ts % 2 ^ 64).toNat

/-- `buffer.readBigInt64LE` followed by `Number(...)`: read eight bytes as
an unsigned integer and reinterpret as a signed 64-bit value. -/
def readBigInt64LE (bs : List ℕ) : ℤ :=
  let u : ℤ := natOfBytesLE bs
  if u < 2 ^ 63 then u else u - 2 ^ 64

/-! ## Symbols and the binary tick codec (`server/src/generator.ts`) -/

/-- `SYMBOLS = ['BTC', 'ETH', 'SOL', 'DOGE', 'XRP']`. -/
def SYMBOLS : List String := ["BTC", "ETH", "SOL", "DOGE", "XRP"]

/-- `SYMBOL_TO_INDEX`, the record mapping each known symbol to its index. -/
def SYMBOL_TO_INDEX : String → Option ℕ
  | "BTC" => some 0
  | "ETH" => some 1
  | "SOL" => some 2
  | "DOGE" => some 3
  | "XRP" => some 4
  | _ => none

/-- `INDEX_TO_SYMBOL`, the record mapping each known index to its symbol;
`none` models the `undefined` a JS record lookup yields off-table. -/
def INDEX_TO_SYMBOL : ℕ → Option String
  | 0 => some "BTC"
  | 1 => some "ETH"
  | 2 => some "SOL"
  | 3 => some "DOGE"
  | 4 => some "XRP"
  | _ => none

/-- A tick as it flows through the binary codec: the price is carried as
its IEEE-754 bit pattern (`priceBits < 2^64`), which is exactly what
`writeDoubleLE`/`readDoubleLE` transport. -/
structure TickB where
  symbol : String
  priceBits : ℕ
  ts : ℤ
deriving DecidableEq, Repr

/-- `generateTickBinary` applied to a given tick (the tick itself comes
from `generateTick`): 4-byte LE symbol index, 8-byte LE price double,
8-byte LE `BigInt(ts)`.  `none` models the crash a JS lookup of an unknown
symbol would cause; generated ticks always have a known symbol. -/
def generateTickBinaryOf (t : TickB) : Option (List ℕ) :=
  (SYMBOL_TO_INDEX t.symbol).map fun idx =>
    bytesOfNatLE 4 idx ++ bytesOfNatLE 8 t.priceBits ++ writeBigInt64LE t.ts

/-- `decodeBinaryTick` (server, `generator.ts`): read the symbol index with
`'BTC'` fallback, the price double, and the signed 64-bit timestamp. -/
def decodeBinaryTick (buf : List ℕ) : TickB :=
  { symbol := Option.getD (INDEX_TO_SYMBOL (natOfBytesLE (buf.take 4))) "BTC"
    priceBits := natOfBytesLE ((buf.drop 4).take 8)
    ts := readBigInt64LE ((buf.drop 12).take 8) }

/-- `decodeBinaryTick` (client, `useWebSocket.ts`): same layout, but the
timestamp is reassembled from two unsigned 32-bit reads as
`tsLow + tsHigh * 0x100000000` (an unsigned interpretation). -/
def decodeBinaryTickClient (buf : List ℕ) : TickB :=
  { symbol := Option.getD (INDEX_TO_SYMBOL (natOfBytesLE (buf.take 4))) "BTC"
    priceBits := natOfBytesLE ((buf.drop 4).take 8)
    ts := (natOfBytesLE ((buf.drop 12).take 4) : ℤ)
      + (natOfBytesLE ((buf.drop 16).take 4) : ℤ) * 4294967296 }

/-! ## Event generator (`server/src/generator.ts`) -/

/-- A generated tick as returned by `generateTick`, with the price as an
exact rational. -/
structure TickMessage where
  symbol : String
  price : ℚ
  ts : ℤ
deriving DecidableEq, Repr

/-- `Number(x.toFixed(6))`: rounding to six decimal places, half away from
zero; all generated prices are positive, so this is rounding half up. -/
def toFixed6 (q : ℚ) : ℚ := (⌊q * 1000000 + 1 / 2⌋ : ℚ) / 1000000

/-- The initial `prices` map of the generator, as a function on symbols
(only the five members of `SYMBOLS` are ever read or written). -/
def initialPrices : String → ℚ
  | "BTC" => 50000
  | "ETH" => 3000
  | "SOL" => 100
  | "DOGE" => 1 / 10
  | "XRP" => 1 / 2
  | _ => 0

/-- `generateTick`, with the two `Math.random()` draws (`rSym` for the
symbol pick, `rWalk` for the price walk, both drawn from `[0,1)`) and the
current time `Date.now()` as explicit inputs.  Picks
`SYMBOLS[Math.floor(rSym * SYMBOLS.length)]` (the `getD` default is never
reached for `rSym ∈ [0,1)`), walks that symbol's price by
`price * (rWalk - 0.5) * 0.002` clamped below at `0.0001`, stores the new
price, and returns the tick with the price rounded by `toFixed(6)`.
Returns the tick and the updated price map. -/
def generateTick (rSym rWalk : ℚ) (now : ℤ) (prices : String → ℚ) :
    TickMessage × (String → ℚ) :=
  let symbol := SYMBOLS.getD (⌊rSym * (SYMBOLS.length : ℚ)⌋).toNat "BTC"
  let currentPrice := prices symbol
  let change := currentPrice * (rWalk - 1 / 2) * (2 / 1000)
  let newPrice := max (1 / 10000) (currentPrice + change)
  (⟨symbol, toFixed6 newPrice, now⟩, Function.update prices symbol newPrice)

/-- Run the generator over a sequence of calls, each with its own random
draws and clock reading, threading the mutable price map; collects the
returned ticks. -/
def runGenerateTicks : List (ℚ × ℚ × ℤ) → (String → ℚ) →
    List TickMessage × (String → ℚ)
  | [], prices => ([], prices)
  | (r1, r2, now) :: rs, prices =>
    let out := generateTick r1 r2 now prices
    let rec_ := runGenerateTicks rs out.2
    (out.1 :: rec_.1, rec_.2)

/-! ## Server configuration (`server/src/config.ts`) -/

inductive MessageFormat where
  | json
  | binary
deriving DecidableEq, Repr

structure ServerConfig where
  rate : ℤ
  rampEnabled : Bool
  rampPercent : ℚ
  rampIntervalSec : ℤ
  format : MessageFormat
deriving DecidableEq, Repr

/-- The startup defaults of `config.ts`. -/
def defaultConfig : ServerConfig := ⟨100, false, 10, 5, MessageFormat.json⟩

/-- The ramp interval callback (`startBroadcast` in `ws-server.ts` /
`uws-server.ts`): read the current config and apply
`updateConfig (rate := Math.floor(rate * (1 + rampPercent / 100)))`. -/
def rampTick (c : ServerConfig) : ServerConfig :=
  { c with rate := ⌊(c.rate : ℚ) * (1 + c.rampPercent / 100)⌋ }

/-! ## The pacing scheduler (`server/src/uws-server.ts`)

The three module-level timer slots (`intervalId`, `rampIntervalId`,
`telemetryIntervalId`), the `highFreqRunning` flag and the `setImmediate`
queue of pending busy-loop `tick` callbacks are made explicit.  A pending
callback carries the variables its closure captured: its loop identity,
the target rate that fixed `nsPerMessage`, and `lastSendTime`. -/

inductive TimerJob where
  | broadcastPubSub
  | broadcastBatchPubSub (messagesPerTick : ℤ)
deriving DecidableEq, Repr

structure IntervalTimer where
  job : TimerJob
  delayMs : JsNum
deriving DecidableEq, Repr

structure HfLoop where
  loopId : ℕ
  targetRate : ℤ
  lastSendTime : ℤ
deriving DecidableEq, Repr

structure EngineState where
  intervalId : Option IntervalTimer
  rampIntervalId : Bool
  telemetryIntervalId : Bool
  highFreqRunning : Bool
  pending : List HfLoop
  nextLoopId : ℕ
  sentCount : ℕ
  sendLog : List (ℕ × ℤ)
deriving DecidableEq, Repr

def initEngine : EngineState := ⟨none, false, false, false, [], 0, 0, []⟩

/-- `stopHighFrequencyBroadcast`: only resets the flag; pending
`setImmediate` callbacks cannot be cancelled. -/
def stopHighFrequencyBroadcast (s : EngineState) : EngineState :=
  { s with highFreqRunning := false }

/-- `startHighFrequencyBroadcast`: records `lastSendTime = hrtime()`, sets
the flag and schedules a fresh `tick` closure on the immediate queue. -/
def startHighFrequencyBroadcast (targetRate now : ℤ) (s : EngineState) : EngineState :=
  { s with highFreqRunning := true,
           pending := s.pending ++ [⟨s.nextLoopId, targetRate, now⟩],
           nextLoopId := s.nextLoopId + 1 }

def startTelemetry (s : EngineState) : EngineState :=
  { s with telemetryIntervalId := true }

def stopTelemetry (s : EngineState) : EngineState :=
  { s with telemetryIntervalId := false }

/-- `stopBroadcast`: clear the broadcast interval and the ramp interval,
stop the high-frequency flag, stop telemetry. -/
def stopBroadcast (s : EngineState) : EngineState :=
  stopTelemetry (stopHighFrequencyBroadcast
    { s with intervalId := none, rampIntervalId := false })

def HIGH_FREQ_THRESHOLD : ℤ := 10000

/-- `startBroadcast` of `uws-server.ts`: stop everything, then select the
pacing strategy by the configured rate — busy loop above 10000/s, one
`setInterval(broadcastPubSub, 1000/rate)` at or below 1000/s, a 1 ms
`setInterval(broadcastBatchPubSub(ceil(rate/1000)))` in between — then
start telemetry and, if enabled, the ramp interval. -/
def startBroadcast (c : ServerConfig) (now : ℤ) (s : EngineState) : EngineState :=
  let s1 := stopBroadcast s
  let s2 :=
    if HIGH_FREQ_THRESHOLD < c.rate then
      startHighFrequencyBroadcast c.rate now s1
    else if c.rate ≤ 1000 then
      { s1 with intervalId := some ⟨TimerJob.broadcastPubSub, jsDiv 1000 (c.rate : ℚ)⟩ }
    else
      { s1 with intervalId := some ⟨TimerJob.broadcastBatchPubSub ⌈(c.rate : ℚ) / 1000⌉, JsNum.fin 1⟩ }
  let s3 := startTelemetry s2
  if c.rampEnabled then { s3 with rampIntervalId := true } else s3

/-- One wake-up of the installed `setInterval` timer: `broadcastPubSub`
publishes one message; `broadcastBatchPubSub` publishes `messagesPerTick`
messages in its inner loop. -/
def runIntervalTick (s : EngineState) : EngineState :=
  match s.intervalId with
  | none => s
  | some t =>
    match t.job with
    | TimerJob.broadcastPubSub => { s with sentCount := s.sentCount + 1 }
    | TimerJob.broadcastBatchPubSub k => { s with sentCount := s.sentCount + k.toNat }

/-- The quota computation of one busy-loop iteration
(`startHighFrequencyBroadcast`): against the closure's
`nsPerMessage = 1e9 / targetRate`, the quota for the elapsed monotonic
nanoseconds is `Math.floor(elapsed / nsPerMessage)`. -/
def messagesToSend (targetRate lastSendTime now : ℤ) : ℤ :=
  let nsPerMessage : ℚ := 1000000000 / (targetRate : ℚ)
  let elapsed : ℤ := now - lastSendTime
  ⌊(elapsed : ℚ) / nsPerMessage⌋

/-- One run of the head of the `setImmediate` FIFO, i.e. one iteration of
a busy-loop `tick` callback, at monotonic time `now`: a callback that sees
`highFreqRunning === false` returns without sending or rescheduling;
otherwise it computes its quota `messagesToSend`, publishes that many,
updates its captured `lastSendTime` when it sent, and reschedules itself
(`setImmediate(tick)`, the yield back to the runtime). -/
def runImmediate (now : ℤ) (s : EngineState) : EngineState :=
  match s.pending with
  | [] => s
  | l :: rest =>
    if s.highFreqRunning = false then { s with pending := rest }
    else if 0 < messagesToSend l.targetRate l.lastSendTime now then
      { s with pending := rest ++ [⟨l.loopId, l.targetRate, now⟩],
               sentCount := s.sentCount + (messagesToSend l.targetRate l.lastSendTime now).toNat,
               sendLog := (l.loopId, messagesToSend l.targetRate l.lastSendTime now) :: s.sendLog }
    else
      { s with pending := rest ++ [l] }

/-- Engine transitions: a client connecting, or a configuration change /
ramp tick with clients still connected, runs `startBroadcast` with the
then-current config and clocks; the last client disconnecting runs
`stopBroadcast`; the event loop runs a pending `setImmediate` callback or
fires the installed interval timer. -/
inductive EngineStep : EngineState → EngineState → Prop where
  | start (c : ServerConfig) (now : ℤ) (s : EngineState) :
      EngineStep s (startBroadcast c now s)
  | stop (s : EngineState) : EngineStep s (stopBroadcast s)
  | immediate (now : ℤ) (s : EngineState) : EngineStep s (runImmediate now s)
  | interval (s : EngineState) : EngineStep s (runIntervalTick s)

inductive EngineReachable : EngineState → Prop where
  | init : EngineReachable initEngine
  | step {s s' : EngineState} : EngineReachable s → EngineStep s s' → EngineReachable s'

/-- "The scheduler behaves as stopped": no interval timer installed and the
busy-loop flag down (the state `stopBroadcast` leaves behind). -/
def broadcastStopped (s : EngineState) : Prop :=
  s.intervalId = none ∧ s.highFreqRunning = false

/-- Start of broadcasting with configured rate `0` (config is otherwise the
default), from the idle engine. -/
def zeroRateState : EngineState :=
  startBroadcast { defaultConfig with rate := 0 } 0 initEngine

/-- Start of broadcasting with configured rate `-5`. -/
def negRateState : EngineState :=
  startBroadcast { defaultConfig with rate := -5 } 0 initEngine

/-- A client connects while the config says 20000/s: busy-loop mode. -/
def hfState1 : EngineState :=
  startBroadcast { defaultConfig with rate := 20000 } 0 initEngine

/-- The rate is then changed to 30000/s (config change with a client still
connected restarts the broadcast) at monotonic time 10^6 ns, before the
first loop's pending callback has run. -/
def hfState2 : EngineState :=
  startBroadcast { defaultConfig with rate := 30000 } 1000000 hfState1

/-- The superseded loop's pending callback then runs at 10^9 ns. -/
def hfState3 : EngineState := runImmediate 1000000000 hfState2

/-- The new loop's pending callback runs at 2·10^9 ns. -/
def hfState4 : EngineState := runImmediate 2000000000 hfState3

/-! ## Serialized-message cache (`uws-server.ts`) -/

structure CacheState where
  cachedMessage : Option (List ℕ)
  cachedTimestamp : ℤ
deriving DecidableEq, Repr

/-- `getSerializedTick`, with the current time and the freshly generated
encoding (the `TextEncoder` bytes of `JSON.stringify(generateTick())`) as
explicit inputs: if there is no cached message or its age is `>= 1` ms,
re-encode, cache the new bytes and stamp the cache with `now`; otherwise
return the cached bytes and leave the cache untouched. -/
def getSerializedTick (now : ℤ) (fresh : List ℕ) (s : CacheState) :
    List ℕ × CacheState :=
  match s.cachedMessage with
  | none => (fresh, ⟨some fresh, now⟩)
  | some m =>
    if 1 ≤ now - s.cachedTimestamp then (fresh, ⟨some fresh, now⟩)
    else (m, s)

/-! ## Back-channel telemetry (`uws-server.ts` / `ws-server.ts`) -/

structure ClientStats where
  clientId : String
  lastUpdate : ℤ
  messagesPerSec : ℚ
  totalMessages : ℚ
  avgLatencyMs : ℚ
  p99LatencyMs : ℚ
deriving DecidableEq, Repr

/-- A successfully parsed back-channel JSON message, classified by its
`type` field: `identify`, `stats`, or any other type. -/
inductive ClientMessage where
  | identify (clientId : String)
  | stats (clientId : String) (messagesPerSec totalMessages avgLatencyMs p99LatencyMs : ℚ)
  | otherType (ty : String)
deriving DecidableEq, Repr

/-- Overwrite-or-append on an association list: the behavior of
`Map.prototype.set`. -/
def mapSet {α β : Type} [DecidableEq α] (k : α) (v : β) :
    List (α × β) → List (α × β)
  | [] => [(k, v)]
  | (k', v') :: rest => if k' = k then (k, v) :: rest else (k', v') :: mapSet k v rest

/-- `Map.prototype.get`. -/
def mapGet {α β : Type} [DecidableEq α] (k : α) : List (α × β) → Option β
  | [] => none
  | (k', v') :: rest => if k' = k then some v' else mapGet k rest

/-- The engine state the back-channel handler can touch: the
`clientStats` map and the `clientIdBySocket` identity map (sockets are
identified by a number here). -/
structure TelemetryState where
  clientStats : List (String × ClientStats)
  clientIdBySocket : List (ℕ × String)
deriving DecidableEq, Repr

/-- `handleClientMessage`: the `Option ClientMessage` input is the outcome
of `JSON.parse` on the payload (`none` when parsing throws, in which case
the `catch` block ignores the error).  An `identify` message records the
socket's identity; a `stats` message overwrites that client's stats record
with `lastUpdate = Date.now()`; anything else falls through both `if`
branches.  The second component is the list of messages sent back — the
handler never replies. -/
def handleClientMessage (ws : ℕ) (now : ℤ) (parsed : Option ClientMessage)
    (s : TelemetryState) : TelemetryState × List (List ℕ) :=
  match parsed with
  | none => (s, [])
  | some (ClientMessage.identify cid) =>
      ({ s with clientIdBySocket := mapSet ws cid s.clientIdBySocket }, [])
  | some (ClientMessage.stats cid mps tot avg p99) =>
      ({ s with clientStats := mapSet cid ⟨cid, now, mps, tot, avg, p99⟩ s.clientStats }, [])
  | some (ClientMessage.otherType _) => (s, [])

/-- The 1 Hz telemetry display (`startTelemetry`): a client line shows its
stats exactly when a record exists and `now - lastUpdate < 5000`;
otherwise the line shows `(not connected)`. -/
def telemetryConnected (now : ℤ) (stats : Option ClientStats) : Bool :=
  match stats with
  | some st => decide (now - st.lastUpdate < 5000)
  | none => false

structure StatsResponse where
  clients : List (String × ClientStats)
  actualRate : ℤ
  targetRate : ℤ
deriving DecidableEq, Repr

/-- The stats getter registered with `setStatsCallbacks` (and served by
`GET /stats`): `Object.fromEntries(clientStats)` — the full stored map,
with no staleness filtering — together with the last measured rate and the
configured target rate. -/
def getStats (clientStats : List (String × ClientStats))
    (lastActualRate targetRate : ℤ) : StatsResponse :=
  ⟨clientStats, lastActualRate, targetRate⟩

/-- The stats clearer registered with `setStatsCallbacks`:
`clientStats.clear()`. -/
def clearStats (_ : List (String × ClientStats)) : List (String × ClientStats) := []

/-- A stats record whose `lastUpdate` lies 6 seconds before the clock
reading `6000` used in the claim C4 counterexample. -/
def staleRec : ClientStats := ⟨"tauri-js", 0, 100, 1000, 1, 2⟩

/-! ## Theorems: byte-level lemmas -/

theorem bytesOfNatLE_length (k n : ℕ) : (bytesOfNatLE k n).length = k := by
  induction k generalizing n with
  | zero => rfl
  | succ k ih => simp [bytesOfNatLE, ih]

theorem natOfBytesLE_bytesOfNatLE_mod (k n : ℕ) :
    natOfBytesLE (bytesOfNatLE k n) = n % 256 ^ k := by
  induction k generalizing n with
  | zero => simp [bytesOfNatLE, natOfBytesLE, Nat.mod_one]
  | succ k ih =>
    rw [pow_succ' 256 k]
    simp [bytesOfNatLE, natOfBytesLE, ih, Nat.mod_mul]

theorem natOfBytesLE_bytesOfNatLE (k n : ℕ) (h : n < 256 ^ k) :
    natOfBytesLE (bytesOfNatLE k n) = n := by
  rw [natOfBytesLE_bytesOfNatLE_mod, Nat.mod_eq_of_lt h]

theorem bytesOfNatLE_add (j k n : ℕ) :
    bytesOfNatLE (j + k) n = bytesOfNatLE j n ++ bytesOfNatLE k (n / 256 ^ j) := by
  induction j generalizing n with
  | zero => simp [bytesOfNatLE]
  | succ j ih =>
    have h1 : j + 1 + k = (j + k) + 1 := by omega
    rw [h1]
    simp only [bytesOfNatLE, ih, List.cons_append]
    rw [Nat.div_div_eq_div_mul, ← pow_succ' 256 j]

theorem writeBigInt64LE_length (ts : ℤ) : (writeBigInt64LE ts).length = 8 :=
  bytesOfNatLE_length 8 _

theorem readBigInt64LE_writeBigInt64LE (ts : ℤ) (h0 : 0 ≤ ts) (hts : ts < 2 ^ 63) :
    readBigInt64LE (writeBigInt64LE ts) = ts := by
  unfold writeBigInt64LE readBigInt64LE
  have h63 : (2 : ℤ) ^ 63 = 9223372036854775808 := by norm_num
  have h64 : (2 : ℤ) ^ 64 = 18446744073709551616 := by norm_num
  have hmod : ts % 2 ^ 64 = ts := Int.emod_eq_of_lt h0 (by rw [h64]; omega)
  rw [hmod]
  have htn : ts.toNat < 256 ^ 8 := by
    have : (256 : ℕ) ^ 8 = 18446744073709551616 := by norm_num
    omega
  rw [natOfBytesLE_bytesOfNatLE 8 ts.toNat htn]
  have hcast : (ts.toNat : ℤ) = ts := Int.toNat_of_nonneg h0
  simp only [hcast]
  rw [if_pos hts]

theorem INDEX_TO_SYMBOL_ge_five (n : ℕ) (h : 5 ≤ n) : INDEX_TO_SYMBOL n = none := by
  obtain ⟨m, rfl⟩ : ∃ m, n = m + 5 := ⟨n - 5, by omega⟩
  rfl

theorem generateTickBinaryOf_eq (sym : String) (idx pb : ℕ) (ts : ℤ)
    (hfwd : SYMBOL_TO_INDEX sym = some idx) :
    generateTickBinaryOf ⟨sym, pb, ts⟩
      = some (bytesOfNatLE 4 idx ++ bytesOfNatLE 8 pb ++ writeBigInt64LE ts) := by
  simp [generateTickBinaryOf, hfwd]

/-- Both decoders applied to an encoded tick recover every field, given a
known symbol index, an in-range price bit pattern and a timestamp that fits
in a nonnegative signed 64-bit value. -/
theorem decodeBinaryTick_encodeParts (symIdx : ℕ) (sym : String) (pb : ℕ) (ts : ℤ)
    (hidx : symIdx < 2 ^ 32) (hback : INDEX_TO_SYMBOL symIdx = some sym)
    (hp : pb < 2 ^ 64) (h0 : 0 ≤ ts) (hts : ts < 2 ^ 63) :
    decodeBinaryTick (bytesOfNatLE 4 symIdx ++ bytesOfNatLE 8 pb ++ writeBigInt64LE ts)
        = ⟨sym, pb, ts⟩ ∧
    decodeBinaryTickClient (bytesOfNatLE 4 symIdx ++ bytesOfNatLE 8 pb ++ writeBigInt64LE ts)
        = ⟨sym, pb, ts⟩ := by
  have l4 : (bytesOfNatLE 4 symIdx).length = 4 := bytesOfNatLE_length 4 _
  have l8 : (bytesOfNatLE 8 pb).length = 8 := bytesOfNatLE_length 8 _
  have l12 : (bytesOfNatLE 4 symIdx ++ bytesOfNatLE 8 pb).length = 12 := by
    simp [l4, l8]
  have htake4 :
      ((bytesOfNatLE 4 symIdx ++ bytesOfNatLE 8 pb) ++ writeBigInt64LE ts).take 4
        = bytesOfNatLE 4 symIdx := by
    rw [List.append_assoc]; exact List.take_left' l4
  have hdrop4 :
      ((bytesOfNatLE 4 symIdx ++ bytesOfNatLE 8 pb) ++ writeBigInt64LE ts).drop 4
        = bytesOfNatLE 8 pb ++ writeBigInt64LE ts := by
    rw [List.append_assoc]; exact List.drop_left' l4
  have hdrop12 :
      ((bytesOfNatLE 4 symIdx ++ bytesOfNatLE 8 pb) ++ writeBigInt64LE ts).drop 12
        = writeBigInt64LE ts := List.drop_left' l12
  have hsymfield :
      Option.getD (INDEX_TO_SYMBOL (natOfBytesLE (bytesOfNatLE 4 symIdx))) "BTC" = sym := by
    rw [natOfBytesLE_bytesOfNatLE 4 symIdx (by norm_num at hidx ⊢; omega), hback]
    rfl
  have hpricefield : natOfBytesLE ((bytesOfNatLE 8 pb ++ writeBigInt64LE ts).take 8) = pb := by
    rw [List.take_left' l8, natOfBytesLE_bytesOfNatLE 8 pb (by norm_num at hp ⊢; omega)]
  have hw8take : (writeBigInt64LE ts).take 8 = writeBigInt64LE ts := by
    apply List.take_of_length_le
    rw [writeBigInt64LE_length]
  constructor
  · unfold decodeBinaryTick
    rw [htake4, hdrop4, hdrop12, hsymfield, hpricefield, hw8take,
      readBigInt64LE_writeBigInt64LE ts h0 hts]
  · -- the client reads the timestamp as two unsigned 32-bit halves
    have hmod : ts % 2 ^ 64 = ts := by
      have h64 : (2 : ℤ) ^ 64 = 18446744073709551616 := by norm_num
      have h63 : (2 : ℤ) ^ 63 = 9223372036854775808 := by norm_num
      exact Int.emod_eq_of_lt h0 (by omega)
    have hsplit : writeBigInt64LE ts
        = bytesOfNatLE 4 ts.toNat ++ bytesOfNatLE 4 (ts.toNat / 256 ^ 4) := by
      unfold writeBigInt64LE
      rw [hmod]
      exact bytesOfNatLE_add 4 4 ts.toNat
    have hl4ts : (bytesOfNatLE 4 ts.toNat).length = 4 := bytesOfNatLE_length 4 _
    have htslow : (writeBigInt64LE ts).take 4 = bytesOfNatLE 4 ts.toNat := by
      rw [hsplit]; exact List.take_left' hl4ts
    have hdrop16 :
        ((bytesOfNatLE 4 symIdx ++ bytesOfNatLE 8 pb) ++ writeBigInt64LE ts).drop 16
          = bytesOfNatLE 4 (ts.toNat / 256 ^ 4) := by
      rw [hsplit, ← List.append_assoc]
      apply List.drop_left'
      simp [bytesOfNatLE_length]
    have htshigh : (bytesOfNatLE 4 (ts.toNat / 256 ^ 4)).take 4
        = bytesOfNatLE 4 (ts.toNat / 256 ^ 4) := by
      apply List.take_of_length_le
      rw [bytesOfNatLE_length]
    unfold decodeBinaryTickClient
    rw [htake4, hdrop4, hdrop12, hsymfield, hpricefield, htslow, hdrop16, htshigh,
      natOfBytesLE_bytesOfNatLE_mod, natOfBytesLE_bytesOfNatLE_mod]
    have hn : ts.toNat % 256 ^ 4 + ts.toNat / 256 ^ 4 % 256 ^ 4 * 4294967296
        = ts.toNat := by
      have h2 : (256 : ℕ) ^ 4 = 4294967296 := by norm_num
      rw [h2]
      omega
    have harith : ((ts.toNat % 256 ^ 4 : ℕ) : ℤ)
        + ((ts.toNat / 256 ^ 4 % 256 ^ 4 : ℕ) : ℤ) * 4294967296 = ts := by
      rw [← Int.toNat_of_nonneg h0]
      exact_mod_cast hn
    rw [harith]

/-- Claim C5: decoding the 20-byte binary encoding of a generated event
reproduces the symbol and the millisecond timestamp exactly and the price
to IEEE-754 double precision (the price is modelled by its 64-bit pattern,
so "to double precision" is bit-pattern identity; this holds for every
finite double, in particular every value in `(0, 1e9)`).  Both the server
decoder (`generator.ts`) and the client decoder (`useWebSocket.ts`) are
left inverses of the binary encoder on generated events, whose symbol is
in `SYMBOLS` and whose timestamp `Date.now()` is a nonnegative value below
`2^63`. -/
theorem claim_C5_binary_roundtrip (t : TickB) (hsym : t.symbol ∈ SYMBOLS)
    (hp : t.priceBits < 2 ^ 64) (h0 : 0 ≤ t.ts) (hts : t.ts < 2 ^ 63) :
    ∃ buf : List ℕ, generateTickBinaryOf t = some buf ∧ buf.length = 20 ∧
      decodeBinaryTick buf = t ∧ decodeBinaryTickClient buf = t := by
  obtain ⟨sym, pb, ts⟩ := t
  simp only [SYMBOLS, List.mem_cons, List.not_mem_nil, or_false] at hsym
  have step : ∀ idx : ℕ, idx < 2 ^ 32 → SYMBOL_TO_INDEX sym = some idx →
      INDEX_TO_SYMBOL idx = some sym →
      ∃ buf : List ℕ, generateTickBinaryOf ⟨sym, pb, ts⟩ = some buf ∧ buf.length = 20 ∧
        decodeBinaryTick buf = ⟨sym, pb, ts⟩ ∧ decodeBinaryTickClient buf = ⟨sym, pb, ts⟩ := by
    intro idx hlt hfwd hback
    refine ⟨_, generateTickBinaryOf_eq sym idx pb ts hfwd, ?_, ?_⟩
    · simp [bytesOfNatLE_length, writeBigInt64LE_length]
    · exact decodeBinaryTick_encodeParts idx sym pb ts hlt hback hp h0 hts
  rcases hsym with h | h | h | h | h <;> subst h
  · exact step 0 (by norm_num) rfl rfl
  · exact step 1 (by norm_num) rfl rfl
  · exact step 2 (by norm_num) rfl rfl
  · exact step 3 (by norm_num) rfl rfl
  · exact step 4 (by norm_num) rfl rfl

/-- Witness for claim C5: the round trip evaluated at the concrete tick
with symbol `"SOL"`, price bit pattern `4638144666238189568` (the double
`125.0`) and timestamp `1700000000000`. -/
theorem claim_C5_binary_roundtrip_witness :
    (("SOL" : String) ∈ SYMBOLS ∧ (4638144666238189568 : ℕ) < 2 ^ 64 ∧
      (0 : ℤ) ≤ 1700000000000 ∧ (1700000000000 : ℤ) < 2 ^ 63) ∧
    ∃ buf : List ℕ,
      generateTickBinaryOf ⟨"SOL", 4638144666238189568, 1700000000000⟩ = some buf ∧
      buf.length = 20 ∧
      decodeBinaryTick buf = ⟨"SOL", 4638144666238189568, 1700000000000⟩ ∧
      decodeBinaryTickClient buf = ⟨"SOL", 4638144666238189568, 1700000000000⟩ :=
  ⟨⟨by decide, by norm_num, by norm_num, by norm_num⟩,
    claim_C5_binary_roundtrip ⟨"SOL", 4638144666238189568, 1700000000000⟩
      (by decide) (by norm_num) (by norm_num) (by norm_num)⟩

/-- Claim C10: binary decoding is total on every 20-byte buffer; when the
4-byte little-endian key index is not one of the known indices 0–4, both
decoders fall back to the symbol `"BTC"` while still reading the price and
timestamp fields from the buffer as given. -/
theorem claim_C10_decode_fallback (buf : List ℕ) (hlen : buf.length = 20)
    (hidx : 5 ≤ natOfBytesLE (buf.take 4)) :
    decodeBinaryTick buf
        = ⟨"BTC", natOfBytesLE ((buf.drop 4).take 8),
            readBigInt64LE ((buf.drop 12).take 8)⟩ ∧
    decodeBinaryTickClient buf
        = ⟨"BTC", natOfBytesLE ((buf.drop 4).take 8),
            (natOfBytesLE ((buf.drop 12).take 4) : ℤ)
              + (natOfBytesLE ((buf.drop 16).take 4) : ℤ) * 4294967296⟩ := by
  have hnone : INDEX_TO_SYMBOL (natOfBytesLE (buf.take 4)) = none :=
    INDEX_TO_SYMBOL_ge_five _ hidx
  constructor
  · unfold decodeBinaryTick
    rw [hnone]
    rfl
  · unfold decodeBinaryTickClient
    rw [hnone]
    rfl

/-- Witness for claim C10: a concrete 20-byte buffer whose key index is 7
decodes, without failing, to the fallback symbol `"BTC"` with the price and
timestamp bytes read as given. -/
theorem claim_C10_decode_fallback_witness :
    ((List.replicate 16 0 ++ [7, 0, 0, 0]).reverse.length = 20 ∧
      5 ≤ natOfBytesLE (((List.replicate 16 0 ++ [7, 0, 0, 0]).reverse).take 4)) ∧
    decodeBinaryTick ((List.replicate 16 0 ++ [7, 0, 0, 0]).reverse)
        = ⟨"BTC",
            natOfBytesLE ((((List.replicate 16 0 ++ [7, 0, 0, 0]).reverse).drop 4).take 8),
            readBigInt64LE ((((List.replicate 16 0 ++ [7, 0, 0, 0]).reverse).drop 12).take 8)⟩ ∧
    decodeBinaryTickClient ((List.replicate 16 0 ++ [7, 0, 0, 0]).reverse)
        = ⟨"BTC",
            natOfBytesLE ((((List.replicate 16 0 ++ [7, 0, 0, 0]).reverse).drop 4).take 8),
            (natOfBytesLE ((((List.replicate 16 0 ++ [7, 0, 0, 0]).reverse).drop 12).take 4) : ℤ)
              + (natOfBytesLE ((((List.replicate 16 0 ++ [7, 0, 0, 0]).reverse).drop 16).take 4) : ℤ)
                  * 4294967296⟩ :=
  ⟨⟨by decide, by decide⟩,
    claim_C10_decode_fallback _ (by decide) (by decide)⟩

/-! ## Theorems: event generator -/

theorem toFixed6_pos (q : ℚ) (h : 1 / 10000 ≤ q) : 0 < toFixed6 q := by
  unfold toFixed6
  have h100 : (100 : ℤ) ≤ ⌊q * 1000000 + 1 / 2⌋ := by
    rw [Int.le_floor]
    push_cast
    nlinarith
  have hpos : (0 : ℚ) < (⌊q * 1000000 + 1 / 2⌋ : ℚ) := by
    exact_mod_cast lt_of_lt_of_le (by norm_num) h100
  exact div_pos hpos (by norm_num)

theorem generateTick_fst (rSym rWalk : ℚ) (now : ℤ) (prices : String → ℚ) :
    (generateTick rSym rWalk now prices).1
      = ⟨SYMBOLS.getD (⌊rSym * (SYMBOLS.length : ℚ)⌋).toNat "BTC",
         toFixed6 (max (1 / 10000)
           (prices (SYMBOLS.getD (⌊rSym * (SYMBOLS.length : ℚ)⌋).toNat "BTC")
             + prices (SYMBOLS.getD (⌊rSym * (SYMBOLS.length : ℚ)⌋).toNat "BTC")
                 * (rWalk - 1 / 2) * (2 / 1000))),
         now⟩ := rfl

theorem generateTick_props (rSym rWalk : ℚ) (now : ℤ) (prices : String → ℚ)
    (h0 : 0 ≤ rSym) (h1 : rSym < 1) :
    (generateTick rSym rWalk now prices).1.symbol ∈ SYMBOLS ∧
    0 < (generateTick rSym rWalk now prices).1.price := by
  have hidx : (⌊rSym * (SYMBOLS.length : ℚ)⌋).toNat < 5 := by
    have h5 : ((SYMBOLS.length : ℕ) : ℚ) = 5 := by norm_num [SYMBOLS]
    have hlt : ⌊rSym * (SYMBOLS.length : ℚ)⌋ < 5 := by
      rw [h5, Int.floor_lt]
      push_cast
      nlinarith
    omega
  rw [generateTick_fst]
  constructor
  · show SYMBOLS.getD (⌊rSym * (SYMBOLS.length : ℚ)⌋).toNat "BTC" ∈ SYMBOLS
    set k := (⌊rSym * (SYMBOLS.length : ℚ)⌋).toNat with hk
    interval_cases k <;> decide
  · exact toFixed6_pos _ (le_max_left _ _)

theorem runGenerateTicks_props (draws : List (ℚ × ℚ × ℤ)) (prices : String → ℚ)
    (hdraws : ∀ d ∈ draws, 0 ≤ d.1 ∧ d.1 < 1) :
    ∀ t ∈ (runGenerateTicks draws prices).1, t.symbol ∈ SYMBOLS ∧ 0 < t.price := by
  induction draws generalizing prices with
  | nil =>
    intro t ht
    simp [runGenerateTicks] at ht
  | cons d rs ih =>
    obtain ⟨r1, r2, now⟩ := d
    intro t ht
    simp only [runGenerateTicks, List.mem_cons] at ht
    rcases ht with rfl | ht
    · exact generateTick_props r1 r2 now prices
        (hdraws (r1, r2, now) (by simp)).1 (hdraws (r1, r2, now) (by simp)).2
    · exact ih ((generateTick r1 r2 now prices).2)
        (fun d hd => hdraws d (List.mem_cons_of_mem _ hd)) t ht

/-- Claim C9: every event returned by the generator — over any sequence of
`generateTick` calls from the initial per-key price state, with each call's
random draws in `[0,1)` — has a strictly positive price (the walk
`newPrice = max(0.0001, price + price * (rWalk - 0.5) * 0.002)` is clamped
at the positive floor `0.0001` and survives the `toFixed(6)` rounding) and
a symbol drawn from the fixed closed set `SYMBOLS` of at most 8 members. -/
theorem claim_C9_generator_invariant (draws : List (ℚ × ℚ × ℤ))
    (hdraws : ∀ d ∈ draws, 0 ≤ d.1 ∧ d.1 < 1) :
    SYMBOLS.length ≤ 8 ∧
    ∀ t ∈ (runGenerateTicks draws initialPrices).1,
      t.symbol ∈ SYMBOLS ∧ 0 < t.price :=
  ⟨by decide, runGenerateTicks_props draws initialPrices hdraws⟩

/-- Witness for claim C9: two concrete generator calls (draws `(0, 0)` then
`(9/10, 99/100)`). -/
theorem claim_C9_generator_invariant_witness :
    (∀ d ∈ [((0 : ℚ), (0 : ℚ), (0 : ℤ)), (9 / 10, 99 / 100, 5)], 0 ≤ d.1 ∧ d.1 < 1) ∧
    (SYMBOLS.length ≤ 8 ∧
      ∀ t ∈ (runGenerateTicks [((0 : ℚ), (0 : ℚ), (0 : ℤ)), (9 / 10, 99 / 100, 5)]
          initialPrices).1, t.symbol ∈ SYMBOLS ∧ 0 < t.price) :=
  ⟨by intro d hd; fin_cases hd <;> norm_num,
    claim_C9_generator_invariant _ (by intro d hd; fin_cases hd <;> norm_num)⟩

/-! ## Theorems: ramp arithmetic -/

/-- Claim C6: on every ramp tick the new target rate is
`Math.floor(rate * (1 + rampPercent / 100))` of the then-current rate, with
rounding applied once per tick; starting from rate 100 with
`rampPercent = 10` and no manual override, three ramp ticks yield
`100 → 110 → 121 → 133`. -/
theorem claim_C6_ramp_arithmetic :
    (∀ c : ServerConfig, (rampTick c).rate = ⌊(c.rate : ℚ) * (1 + c.rampPercent / 100)⌋)
    ∧ (rampTick (rampTick (rampTick ⟨100, true, 10, 1, MessageFormat.json⟩))).rate = 133 := by
  refine ⟨fun c => rfl, ?_⟩
  have e1 : rampTick ⟨100, true, 10, 1, MessageFormat.json⟩
      = ⟨110, true, 10, 1, MessageFormat.json⟩ := by
    unfold rampTick
    simp only [ServerConfig.mk.injEq, and_true]
    rw [Int.floor_eq_iff]
    norm_num
  have e2 : rampTick ⟨110, true, 10, 1, MessageFormat.json⟩
      = ⟨121, true, 10, 1, MessageFormat.json⟩ := by
    unfold rampTick
    simp only [ServerConfig.mk.injEq, and_true]
    rw [Int.floor_eq_iff]
    norm_num
  have e3 : rampTick ⟨121, true, 10, 1, MessageFormat.json⟩
      = ⟨133, true, 10, 1, MessageFormat.json⟩ := by
    unfold rampTick
    simp only [ServerConfig.mk.injEq, and_true]
    rw [Int.floor_eq_iff]
    norm_num
  rw [e1, e2, e3]

/-! ## Theorems: pacing scheduler -/

theorem zeroRateState_eq :
    zeroRateState
      = ⟨some ⟨TimerJob.broadcastPubSub, JsNum.posInf⟩, false, true, false, [], 0, 0, []⟩ := by
  unfold zeroRateState startBroadcast stopBroadcast stopTelemetry stopHighFrequencyBroadcast
    startHighFrequencyBroadcast startTelemetry initEngine HIGH_FREQ_THRESHOLD defaultConfig
  norm_num [jsDiv]

theorem negRateState_eq :
    negRateState
      = ⟨some ⟨TimerJob.broadcastPubSub, JsNum.fin (-200)⟩, false, true, false, [], 0, 0, []⟩ := by
  unfold negRateState startBroadcast stopBroadcast stopTelemetry stopHighFrequencyBroadcast
    startHighFrequencyBroadcast startTelemetry initEngine HIGH_FREQ_THRESHOLD defaultConfig
  norm_num [jsDiv]

/-- Claim C2 is violated by the code (code bug): for configured target rate
`0`, `startBroadcast` takes the `rate <= 1000` branch and installs
`setInterval(broadcastPubSub, 1000 / 0)` — a division-by-zero-derived
`Infinity` delay, which Node's timer validation clamps to 1 ms — so the
scheduler does not behave as stopped and sends a message on every
wake-up; a negative rate (-5) likewise installs a `-200` ms delay clamped
to 1 ms.  The spec requires a rate ≤ 0 to mean "stop broadcasting". -/
theorem claim_C2_nonpositive_rate_broadcasts :
    zeroRateState.intervalId = some ⟨TimerJob.broadcastPubSub, jsDiv 1000 ((0 : ℤ) : ℚ)⟩
    ∧ jsDiv 1000 ((0 : ℤ) : ℚ) = JsNum.posInf
    ∧ nodeDelayMs JsNum.posInf = 1
    ∧ ¬ broadcastStopped zeroRateState
    ∧ (runIntervalTick zeroRateState).sentCount = zeroRateState.sentCount + 1
    ∧ negRateState.intervalId = some ⟨TimerJob.broadcastPubSub, JsNum.fin (-200)⟩
    ∧ nodeDelayMs (JsNum.fin (-200)) = 1
    ∧ ¬ broadcastStopped negRateState := by
  refine ⟨?_, ?_, rfl, ?_, ?_, ?_, ?_, ?_⟩
  · rw [zeroRateState_eq]
    norm_num [jsDiv]
  · norm_num [jsDiv]
  · rw [zeroRateState_eq]
    intro h
    exact Option.some_ne_none _ h.1
  · rw [zeroRateState_eq]
    rfl
  · rw [negRateState_eq]
  · norm_num [nodeDelayMs]
  · rw [negRateState_eq]
    intro h
    exact Option.some_ne_none _ h.1

theorem hfState1_eq :
    hfState1 = ⟨none, false, true, true, [⟨0, 20000, 0⟩], 1, 0, []⟩ := by
  unfold hfState1 startBroadcast stopBroadcast stopTelemetry stopHighFrequencyBroadcast
    startHighFrequencyBroadcast startTelemetry initEngine HIGH_FREQ_THRESHOLD defaultConfig
  norm_num

theorem hfState2_eq :
    hfState2 = ⟨none, false, true, true, [⟨0, 20000, 0⟩, ⟨1, 30000, 1000000⟩], 2, 0, []⟩ := by
  rw [show hfState2 = startBroadcast { defaultConfig with rate := 30000 } 1000000 hfState1
      from rfl, hfState1_eq]
  unfold startBroadcast stopBroadcast stopTelemetry stopHighFrequencyBroadcast
    startHighFrequencyBroadcast startTelemetry HIGH_FREQ_THRESHOLD defaultConfig
  norm_num

theorem messagesToSend_loop0 : messagesToSend 20000 0 1000000000 = 20000 := by
  unfold messagesToSend
  rw [Int.floor_eq_iff]
  norm_num

theorem messagesToSend_loop1 : messagesToSend 30000 1000000 2000000000 = 59970 := by
  unfold messagesToSend
  rw [Int.floor_eq_iff]
  norm_num

theorem hfState3_eq :
    hfState3 = ⟨none, false, true, true, [⟨1, 30000, 1000000⟩, ⟨0, 20000, 1000000000⟩],
      2, 20000, [(0, 20000)]⟩ := by
  rw [show hfState3 = runImmediate 1000000000 hfState2 from rfl, hfState2_eq]
  unfold runImmediate
  norm_num [messagesToSend_loop0]
  decide

theorem hfState4_eq :
    hfState4 = ⟨none, false, true, true, [⟨0, 20000, 1000000000⟩, ⟨1, 30000, 2000000000⟩],
      2, 79970, [(1, 59970), (0, 20000)]⟩ := by
  rw [show hfState4 = runImmediate 2000000000 hfState3 from rfl, hfState3_eq]
  unfold runImmediate
  norm_num [messagesToSend_loop1]
  decide

/-- Claim C1 is violated by the code (code bug): on a busy-loop →
busy-loop restart (a config change at rate > 10000 runs `stopBroadcast`
then `startHighFrequencyBroadcast` inside `startBroadcast`), the
superseded loop's pending `setImmediate` callback cannot be cancelled and,
when it fires, observes the `highFreqRunning` flag — a single boolean, not
a generation token — already re-raised by the new loop; it therefore does
not exit: it sends and reschedules itself.  From the reachable state
`hfState2` (connect at rate 20000, then rate change to 30000) both busy
loops sit in the immediate queue with the flag up, each of the next two
callback runs sends a positive batch attributed to a different loop, and
both loops remain scheduled afterwards: two busy loops are active and
sending simultaneously, and the superseded iteration did not exit without
sending. -/
theorem claim_C1_duplicate_busy_loops :
    EngineReachable hfState2
    ∧ hfState2.highFreqRunning = true
    ∧ hfState2.pending.map HfLoop.loopId = [0, 1]
    ∧ hfState3.highFreqRunning = true
    ∧ hfState3.sendLog = [(0, 20000)]
    ∧ hfState3.pending.map HfLoop.loopId = [1, 0]
    ∧ hfState4.sendLog = [(1, 59970), (0, 20000)]
    ∧ hfState4.pending.map HfLoop.loopId = [0, 1] := by
  refine ⟨EngineReachable.step (EngineReachable.step EngineReachable.init
      (EngineStep.start { defaultConfig with rate := 20000 } 0 initEngine))
      (EngineStep.start { defaultConfig with rate := 30000 } 1000000 hfState1),
    ?_, ?_, ?_, ?_, ?_, ?_, ?_⟩
  · rw [hfState2_eq]
  · rw [hfState2_eq]; rfl
  · rw [hfState3_eq]
  · rw [hfState3_eq]
  · rw [hfState3_eq]; rfl
  · rw [hfState4_eq]
  · rw [hfState4_eq]; rfl

theorem startBroadcast_interval (c : ServerConfig) (now : ℤ) (s : EngineState)
    (h : c.rate ≤ 1000) :
    (startBroadcast c now s).intervalId
        = some ⟨TimerJob.broadcastPubSub, jsDiv 1000 (c.rate : ℚ)⟩
    ∧ (startBroadcast c now s).highFreqRunning = false := by
  have h1 : ¬ (HIGH_FREQ_THRESHOLD < c.rate) := by unfold HIGH_FREQ_THRESHOLD; omega
  simp only [startBroadcast, if_neg h1, if_pos h]
  by_cases hr : c.rampEnabled <;>
    simp [hr, startTelemetry, stopBroadcast, stopTelemetry, stopHighFrequencyBroadcast]

theorem startBroadcast_batch (c : ServerConfig) (now : ℤ) (s : EngineState)
    (h1 : 1000 < c.rate) (h2 : c.rate ≤ 10000) :
    (startBroadcast c now s).intervalId
        = some ⟨TimerJob.broadcastBatchPubSub ⌈(c.rate : ℚ) / 1000⌉, JsNum.fin 1⟩
    ∧ (startBroadcast c now s).highFreqRunning = false := by
  have hh : ¬ (HIGH_FREQ_THRESHOLD < c.rate) := by unfold HIGH_FREQ_THRESHOLD; omega
  have hl : ¬ (c.rate ≤ 1000) := by omega
  simp only [startBroadcast, if_neg hh, if_neg hl]
  by_cases hr : c.rampEnabled <;>
    simp [hr, startTelemetry, stopBroadcast, stopTelemetry, stopHighFrequencyBroadcast]

theorem startBroadcast_busyLoop (c : ServerConfig) (now : ℤ) (s : EngineState)
    (h : 10000 < c.rate) :
    (startBroadcast c now s).intervalId = none
    ∧ (startBroadcast c now s).highFreqRunning = true
    ∧ (startBroadcast c now s).pending = s.pending ++ [⟨s.nextLoopId, c.rate, now⟩] := by
  have hh : HIGH_FREQ_THRESHOLD < c.rate := by unfold HIGH_FREQ_THRESHOLD; omega
  simp only [startBroadcast, if_pos hh]
  by_cases hr : c.rampEnabled <;>
    simp [hr, startTelemetry, stopBroadcast, stopTelemetry, stopHighFrequencyBroadcast,
      startHighFrequencyBroadcast]

theorem runIntervalTick_pubsub (s : EngineState) (d : JsNum)
    (h : s.intervalId = some ⟨TimerJob.broadcastPubSub, d⟩) :
    (runIntervalTick s).sentCount = s.sentCount + 1 := by
  unfold runIntervalTick
  rw [h]

theorem runIntervalTick_batch (s : EngineState) (d : JsNum) (k : ℤ)
    (h : s.intervalId = some ⟨TimerJob.broadcastBatchPubSub k, d⟩) :
    (runIntervalTick s).sentCount = s.sentCount + k.toNat := by
  unfold runIntervalTick
  rw [h]

theorem runImmediate_live (tNow : ℤ) (s : EngineState) (l : HfLoop) (rest : List HfLoop)
    (hp : s.pending = l :: rest) (hrun : s.highFreqRunning = true) :
    (runImmediate tNow s).sentCount
        = s.sentCount + (messagesToSend l.targetRate l.lastSendTime tNow).toNat
    ∧ (0 < messagesToSend l.targetRate l.lastSendTime tNow →
        (runImmediate tNow s).pending = rest ++ [⟨l.loopId, l.targetRate, tNow⟩])
    ∧ (messagesToSend l.targetRate l.lastSendTime tNow ≤ 0 →
        (runImmediate tNow s).pending = rest ++ [l]) := by
  unfold runImmediate
  rw [hp, hrun]
  by_cases hq : 0 < messagesToSend l.targetRate l.lastSendTime tNow
  · simp [hq]
  · push_neg at hq
    have ht : (messagesToSend l.targetRate l.lastSendTime tNow).toNat = 0 :=
      Int.toNat_of_nonpos hq
    simp [hq, ht, not_lt.mpr hq]

/-- Claim C3: for every positive target rate R, `startBroadcast` selects
the strategy of R's band — for R ≤ 1000 a per-message `setInterval` of
period `1000/R` ms whose every wake-up sends one message; for
1000 < R ≤ 10000 a 1 ms `setInterval` whose every wake-up sends
`ceil(R/1000)` messages; and for R > 10000 a self-rescheduling busy loop —
and every live busy-loop iteration computes the quota
`floor(elapsed_ns / (1e9 / R))` from the monotonic clock against the
captured last-send instant, sends exactly that many messages, moves the
last-send instant to `now` exactly when it sent, and re-enqueues itself on
the immediate queue (the yield back to the runtime). -/
theorem claim_C3_strategy_bands (c : ServerConfig) (now : ℤ) (s : EngineState)
    (hR : 0 < c.rate) :
    (c.rate ≤ 1000 →
      (startBroadcast c now s).intervalId
          = some ⟨TimerJob.broadcastPubSub, JsNum.fin (1000 / (c.rate : ℚ))⟩
        ∧ (startBroadcast c now s).highFreqRunning = false)
    ∧ (1000 < c.rate → c.rate ≤ 10000 →
      (startBroadcast c now s).intervalId
          = some ⟨TimerJob.broadcastBatchPubSub ⌈(c.rate : ℚ) / 1000⌉, JsNum.fin 1⟩
        ∧ (startBroadcast c now s).highFreqRunning = false)
    ∧ (10000 < c.rate →
      (startBroadcast c now s).intervalId = none
        ∧ (startBroadcast c now s).highFreqRunning = true
        ∧ (startBroadcast c now s).pending = s.pending ++ [⟨s.nextLoopId, c.rate, now⟩])
    ∧ (∀ (s' : EngineState) (d : JsNum),
        s'.intervalId = some ⟨TimerJob.broadcastPubSub, d⟩ →
        (runIntervalTick s').sentCount = s'.sentCount + 1)
    ∧ (∀ (s' : EngineState) (d : JsNum) (k : ℤ),
        s'.intervalId = some ⟨TimerJob.broadcastBatchPubSub k, d⟩ →
        (runIntervalTick s').sentCount = s'.sentCount + k.toNat)
    ∧ (∀ (s' : EngineState) (l : HfLoop) (rest : List HfLoop) (tNow : ℤ),
        s'.pending = l :: rest → s'.highFreqRunning = true →
        messagesToSend l.targetRate l.lastSendTime tNow
            = ⌊((tNow - l.lastSendTime : ℤ) : ℚ) / (1000000000 / (l.targetRate : ℚ))⌋
          ∧ (runImmediate tNow s').sentCount
              = s'.sentCount + (messagesToSend l.targetRate l.lastSendTime tNow).toNat
          ∧ (0 < messagesToSend l.targetRate l.lastSendTime tNow →
              (runImmediate tNow s').pending = rest ++ [⟨l.loopId, l.targetRate, tNow⟩])
          ∧ (messagesToSend l.targetRate l.lastSendTime tNow ≤ 0 →
              (runImmediate tNow s').pending = rest ++ [l])) := by
  refine ⟨fun h => ?_,
    fun h1 h2 => startBroadcast_batch c now s h1 h2,
    fun h => startBroadcast_busyLoop c now s h,
    fun s' d h => runIntervalTick_pubsub s' d h,
    fun s' d k h => runIntervalTick_batch s' d k h,
    fun s' l rest tNow hp hrun => ⟨rfl, runImmediate_live tNow s' l rest hp hrun⟩⟩
  have hne : ((c.rate : ℚ)) ≠ 0 := by
    exact_mod_cast hR.ne'
  have hi := startBroadcast_interval c now s h
  rwa [jsDiv, if_neg hne] at hi

/-- Witness for claim C3: the three bands exercised at rates 500, 5000 and
20000 from the idle engine. -/
theorem claim_C3_strategy_bands_witness :
    ((0 : ℤ) < 500 ∧ (0 : ℤ) < 5000 ∧ (0 : ℤ) < 20000)
    ∧ (startBroadcast ⟨500, false, 10, 5, MessageFormat.json⟩ 0 initEngine).intervalId
        = some ⟨TimerJob.broadcastPubSub, JsNum.fin (1000 / ((500 : ℤ) : ℚ))⟩
    ∧ (startBroadcast ⟨5000, false, 10, 5, MessageFormat.json⟩ 0 initEngine).intervalId
        = some ⟨TimerJob.broadcastBatchPubSub ⌈((5000 : ℤ) : ℚ) / 1000⌉, JsNum.fin 1⟩
    ∧ (startBroadcast ⟨20000, false, 10, 5, MessageFormat.json⟩ 0 initEngine).highFreqRunning
        = true :=
  ⟨⟨by norm_num, by norm_num, by norm_num⟩,
    ((claim_C3_strategy_bands ⟨500, false, 10, 5, MessageFormat.json⟩ 0 initEngine
        (by norm_num)).1 (by norm_num)).1,
    ((claim_C3_strategy_bands ⟨5000, false, 10, 5, MessageFormat.json⟩ 0 initEngine
        (by norm_num)).2.1 (by norm_num) (by norm_num)).1,
    ((claim_C3_strategy_bands ⟨20000, false, 10, 5, MessageFormat.json⟩ 0 initEngine
        (by norm_num)).2.2.1 (by norm_num)).2.1⟩

/-! ## Theorems: serialized-message cache -/

/-- Claim C7: a call to the cached-encoding accessor returns the exact
cached bytes, with the cache state untouched, whenever a cached message
exists and its age is strictly below 1 ms; otherwise (no cached message,
or age ≥ 1 ms) a freshly generated encoding is returned, stored as the new
cache value, and the cache timestamp is set to the current time. -/
theorem claim_C7_encoding_cache (now : ℤ) (fresh m : List ℕ) (s : CacheState) :
    (s.cachedMessage = some m → now - s.cachedTimestamp < 1 →
        getSerializedTick now fresh s = (m, s))
    ∧ ((s.cachedMessage = none ∨ 1 ≤ now - s.cachedTimestamp) →
        getSerializedTick now fresh s = (fresh, ⟨some fresh, now⟩)) := by
  constructor
  · intro hm hage
    unfold getSerializedTick
    rw [hm]
    simp [not_le.mpr hage]
  · intro h
    rcases h with hnone | hage
    · unfold getSerializedTick
      rw [hnone]
    · unfold getSerializedTick
      cases hc : s.cachedMessage with
      | none => rfl
      | some m0 => simp [hage]

/-- Witness for claim C7: a cache stamped at time 5 holding bytes `[1, 2]`
is returned unchanged at time 5 (age 0 < 1 ms) and replaced by the fresh
bytes `[9]` at time 6 (age 1 ≥ 1 ms). -/
theorem claim_C7_encoding_cache_witness :
    getSerializedTick 5 [9] ⟨some [1, 2], 5⟩ = ([1, 2], ⟨some [1, 2], 5⟩)
    ∧ getSerializedTick 6 [9] ⟨some [1, 2], 5⟩ = ([9], ⟨some [9], 6⟩) :=
  ⟨(claim_C7_encoding_cache 5 [9] [1, 2] ⟨some [1, 2], 5⟩).1 rfl (by norm_num),
    (claim_C7_encoding_cache 6 [9] [1, 2] ⟨some [1, 2], 5⟩).2 (Or.inr (by norm_num))⟩

/-! ## Theorems: back-channel message handling -/

/-- Whether a parsed back-channel message is one of the two types the
handler acts on. -/
theorem handleClientMessage_only_identify_stats_mutate :
    ∀ (ws : ℕ) (now : ℤ) (p : Option ClientMessage) (s : TelemetryState),
      (handleClientMessage ws now p s).1 ≠ s →
      (∃ cid, p = some (ClientMessage.identify cid)) ∨
      (∃ cid mps tot avg p99, p = some (ClientMessage.stats cid mps tot avg p99)) := by
  intro ws now p s hne
  match p with
  | none => exact absurd rfl hne
  | some (ClientMessage.identify cid) => exact Or.inl ⟨cid, rfl⟩
  | some (ClientMessage.stats cid mps tot avg p99) => exact Or.inr ⟨cid, mps, tot, avg, p99, rfl⟩
  | some (ClientMessage.otherType ty) => exact absurd rfl hne

/-- Claim C8: an inbound back-channel message that is unparseable
(`JSON.parse` throws, modelled by `none`) or whose parsed `type` is
neither `identify` nor `stats` leaves the engine state unchanged — neither
the stats map nor the identity map is modified — raises no error (the
handler is a total function) and sends nothing back; and no handler call
of any kind ever sends anything back, so only well-formed `identify` and
`stats` messages mutate state. -/
theorem claim_C8_malformed_ignored (ws : ℕ) (now : ℤ) (parsed : Option ClientMessage)
    (s : TelemetryState)
    (h : parsed = none ∨ ∃ ty, parsed = some (ClientMessage.otherType ty)) :
    handleClientMessage ws now parsed s = (s, [])
    ∧ (∀ (ws' : ℕ) (now' : ℤ) (p' : Option ClientMessage) (s' : TelemetryState),
        (handleClientMessage ws' now' p' s').2 = [])
    ∧ (∀ (ws' : ℕ) (now' : ℤ) (p' : Option ClientMessage) (s' : TelemetryState),
        (handleClientMessage ws' now' p' s').1 ≠ s' →
        (∃ cid, p' = some (ClientMessage.identify cid)) ∨
        (∃ cid mps tot avg p99, p' = some (ClientMessage.stats cid mps tot avg p99))) := by
  refine ⟨?_, ?_, handleClientMessage_only_identify_stats_mutate⟩
  · rcases h with rfl | ⟨ty, rfl⟩
    · rfl
    · rfl
  · intro ws' now' p' s'
    match p' with
    | none => rfl
    | some (ClientMessage.identify cid) => rfl
    | some (ClientMessage.stats cid mps tot avg p99) => rfl
    | some (ClientMessage.otherType ty) => rfl

/-- Witness for claim C8: an unparseable payload (`none`) and an unknown
type `"ping"` both leave a concrete state unchanged and reply nothing. -/
theorem claim_C8_malformed_ignored_witness :
    handleClientMessage 3 1000 none ⟨[], []⟩ = (⟨[], []⟩, [])
    ∧ handleClientMessage 3 1000 (some (ClientMessage.otherType "ping")) ⟨[], []⟩
        = (⟨[], []⟩, []) :=
  ⟨(claim_C8_malformed_ignored 3 1000 none ⟨[], []⟩ (Or.inl rfl)).1,
    (claim_C8_malformed_ignored 3 1000 (some (ClientMessage.otherType "ping")) ⟨[], []⟩
      (Or.inr ⟨"ping", rfl⟩)).1⟩

/-! ## Theorems: telemetry staleness -/

theorem mapGet_mapSet {α β : Type} [DecidableEq α] (k : α) (v : β) (l : List (α × β)) :
    mapGet k (mapSet k v l) = some v := by
  induction l with
  | nil => simp [mapSet, mapGet]
  | cons p rest ih =>
    obtain ⟨k', v'⟩ := p
    by_cases h : k' = k
    · simp [mapSet, mapGet, h]
    · simp [mapSet, mapGet, h, ih]

/-- Claim C4 is false as stated: a record 6 seconds stale is excluded from
the displayed "connected" view, yet the subscriber map returned by
`getStats` still contains it — the getter returns
`Object.fromEntries(clientStats)` with no staleness filtering. -/
theorem claim_C4_stale_in_getStats_cex :
    (6000 : ℤ) - staleRec.lastUpdate > 5000
    ∧ telemetryConnected 6000 (mapGet "tauri-js" [("tauri-js", staleRec)]) = false
    ∧ (getStats [("tauri-js", staleRec)] 0 100).clients = [("tauri-js", staleRec)]
    ∧ ("tauri-js", staleRec) ∈ (getStats [("tauri-js", staleRec)] 0 100).clients := by
  refine ⟨by norm_num [staleRec], ?_, rfl, ?_⟩
  · simp [telemetryConnected, mapGet, staleRec]
  · simp [getStats]

/-- Claim C4 (amended): a stats record whose `lastUpdate` is more than 5
seconds in the past is shown as not connected by the 1 Hz telemetry
display — the only staleness-filtered view — while the subscriber map
returned by `getStats` keeps every record, stale ones included, until the
explicit `clearStats`; a single fresh stats report for that subscriberId
overwrites the record with `lastUpdate = now` and it appears in the
connected view again. -/
theorem claim_C4_staleness_views (now : ℤ) (st : ClientStats)
    (h : 5000 < now - st.lastUpdate)
    (m : List (String × ClientStats)) (r t : ℤ) :
    telemetryConnected now (some st) = false
    ∧ (getStats m r t).clients = m
    ∧ clearStats m = []
    ∧ ∀ (ws : ℕ) (now' : ℤ) (cid : String) (mps tot avg p99 : ℚ) (s : TelemetryState),
        mapGet cid ((handleClientMessage ws now'
            (some (ClientMessage.stats cid mps tot avg p99)) s).1.clientStats)
          = some ⟨cid, now', mps, tot, avg, p99⟩
        ∧ telemetryConnected now' (mapGet cid ((handleClientMessage ws now'
            (some (ClientMessage.stats cid mps tot avg p99)) s).1.clientStats)) = true := by
  refine ⟨?_, rfl, rfl, ?_⟩
  · simp only [telemetryConnected, decide_eq_false_iff_not, not_lt]
    omega
  · intro ws now' cid mps tot avg p99 s
    have hset : mapGet cid ((handleClientMessage ws now'
        (some (ClientMessage.stats cid mps tot avg p99)) s).1.clientStats)
        = some ⟨cid, now', mps, tot, avg, p99⟩ := by
      simp [handleClientMessage, mapGet_mapSet]
    refine ⟨hset, ?_⟩
    rw [hset]
    simp [telemetryConnected]

/-- Witness for claim C4 (amended): the stale record `staleRec` at clock
6000, a singleton map, and a fresh report for `"tauri-js"` at clock 7000. -/
theorem claim_C4_staleness_views_witness :
    ((5000 : ℤ) < 6000 - staleRec.lastUpdate)
    ∧ telemetryConnected 6000 (some staleRec) = false
    ∧ (getStats [("tauri-js", staleRec)] 0 100).clients = [("tauri-js", staleRec)]
    ∧ clearStats [("tauri-js", staleRec)] = []
    ∧ (mapGet "tauri-js" ((handleClientMessage 3 7000
          (some (ClientMessage.stats "tauri-js" 1 2 3 4)) ⟨[("tauri-js", staleRec)], []⟩).1.clientStats)
        = some ⟨"tauri-js", 7000, 1, 2, 3, 4⟩
      ∧ telemetryConnected 7000 (mapGet "tauri-js" ((handleClientMessage 3 7000
          (some (ClientMessage.stats "tauri-js" 1 2 3 4)) ⟨[("tauri-js", staleRec)], []⟩).1.clientStats))
        = true) :=
  ⟨by norm_num [staleRec],
    (claim_C4_staleness_views 6000 staleRec (by norm_num [staleRec])
      [("tauri-js", staleRec)] 0 100).1,
    (claim_C4_staleness_views 6000 staleRec (by norm_num [staleRec])
      [("tauri-js", staleRec)] 0 100).2.1,
    (claim_C4_staleness_views 6000 staleRec (by norm_num [staleRec])
      [("tauri-js", staleRec)] 0 100).2.2.1,
    (claim_C4_staleness_views 6000 staleRec (by norm_num [staleRec])
      [("tauri-js", staleRec)] 0 100).2.2.2 3 7000 "tauri-js" 1 2 3 4
      ⟨[("tauri-js", staleRec)], []⟩⟩

end TickBench
